import Mathlib

/-!
Shallow embedding of `Arabycia.py` (class `Arabica`), the single orchestration
class of this repository.  The external collaborators (pyaramorph analyzer,
nltk ISRIStemmer, the Buckwalter transliteration table) are modelled as an
abstract record of pure functions (`Collab`), matching the collaborator
contract: `analyze(text)` returns a pair of a per-token candidate list and a
secondary candidate-string list; `stem`, `uni2buck`, `buck2uni` are pure
string functions.

Python dicts produced by the analyzer are modelled as key-value lists
(`Candidate`), with keys a sum of strings and ints (`PyKey`) because
`extract_data` subscripts a dict with the integer `0`.  Python exceptions are
modelled by `PyErr`; every method that can raise returns its final state
together with an `Except`/`Option` error so that the in-place mutations that
happened before the raise are preserved, exactly as in Python.
-/

set_option autoImplicit false

namespace Arabycia

/-- A Python exception kind, as distinguished by the methods modelled here. -/
inductive PyErr where
  /-- `KeyError`: dict subscript with a key that is absent. -/
  | keyError
  /-- `ValueError`: tuple unpacking of a sequence whose length is not the
  number of targets (`data, _ = self.analyze_text()` with `len != 2`). -/
  | valueError
  /-- `IndexError`: string subscript out of range (`sol[2]`). -/
  | indexError
  /-- `AttributeError`: attribute access on `None` inside a collaborator. -/
  | attributeError
  /-- `TypeError`: subscripting a string with a string index. -/
  | typeError
deriving DecidableEq

/-- A Python dict key: the analyzer produces string keys; `extract_data`
subscripts with the integer `0`. -/
inductive PyKey where
  | str : String → PyKey
  | int : Nat → PyKey
deriving DecidableEq

/-- One candidate analysis mapping produced by the external analyzer for one
token: a Python dict, embedded as its ordered key/value items.  The contract
(spec section 6) gives string values for the keys `arabic`, `transl`,
`solution`, `pos`, `gloss`. -/
abbrev Candidate := List (PyKey × String)

/-- Python dict lookup `c[k]` on the items of the dict (keys of a dict are
pairwise distinct, so first match is the match). -/
def dictGet? (c : Candidate) (k : PyKey) : Option String :=
  match c with
  | [] => none
  | (k', v) :: rest => if k' = k then some v else dictGet? rest k

/-- Dict lookup with `""` for an absent key; used only to state theorems about
dicts that are known to contain the key. -/
def cfield (c : Candidate) (k : PyKey) : String :=
  (dictGet? c k).getD ""

/-- A well-formed analyzer candidate dict: pairwise-distinct keys (every
Python dict has them) that include the five fields of the analyzer contract. -/
abbrev WFDict (c : Candidate) : Prop :=
  (c.map Prod.fst).Nodup ∧
  PyKey.str "transl" ∈ c.map Prod.fst ∧
  PyKey.str "arabic" ∈ c.map Prod.fst ∧
  PyKey.str "solution" ∈ c.map Prod.fst ∧
  PyKey.str "pos" ∈ c.map Prod.fst ∧
  PyKey.str "gloss" ∈ c.map Prod.fst

/-- The four external collaborators of class `Arabica`, as pure functions.
`analyze` is `pyaramorph.Analyzer.analyze_text`: a per-token list of candidate
dicts paired with a secondary list of candidate strings. -/
structure Collab where
  analyze : String → List (List Candidate) × List String
  stem : String → String
  uni2buck : String → String
  buck2uni : String → String

/-- One record of `analyzed_data`, as appended by `extract_data` (line 171). -/
structure ERecord where
  arabic : String
  transl : String
  root : String
  root_transl : String
  candidates : List String
deriving DecidableEq

/-- One record of `processed_data`, as built by `data_process` (line 261):
`{'transl': eg, 'arabic': ar, 'solution': solution, 'pos': pos, 'gloss': gloss}`.
Also used as the accumulator of the `data_process` loops, since the loop
variables `eg, ar, solution, pos, gloss` are exactly its fields. -/
structure PRecord where
  transl : String
  arabic : String
  solution : List String
  pos : List String
  gloss : List String
deriving DecidableEq

/-- The mutable attributes of one `Arabica` object that the modelled methods
read and write (lines 14-19 of the source). -/
structure AState where
  raw_data : Option String
  analyzed_data : List ERecord
  full_analyzed_data : List (List Candidate)
  processed_data : List PRecord
  ambig_words : List String
deriving DecidableEq

/-- The inner loops of `data_process` (lines 254-260): one candidate dict's
items folded into the accumulator.  The five `if k == ...` tests are
independent, `eg`/`ar` are overwritten, `solution`/`pos`/`gloss` appended. -/
def procItems : Candidate → PRecord → PRecord
  | [], acc => acc
  | (k, v) :: rest, acc =>
      procItems rest
        { transl := if k = PyKey.str "transl" then v else acc.transl
          arabic := if k = PyKey.str "arabic" then v else acc.arabic
          solution := if k = PyKey.str "solution" then acc.solution ++ [v] else acc.solution
          pos := if k = PyKey.str "pos" then acc.pos ++ [v] else acc.pos
          gloss := if k = PyKey.str "gloss" then acc.gloss ++ [v] else acc.gloss }

/-- The per-token body of `data_process` (lines 249-261): fresh accumulator
`eg = ''`, `ar = ''`, empty lists, folded over the token's candidates. -/
def procToken (cands : List Candidate) : PRecord :=
  cands.foldl (fun acc c => procItems c acc) ⟨"", "", [], [], []⟩

/-- `data_process` (lines 242-263): rebuilds `processed_data` from
`full_analyzed_data` (assignment, so it replaces rather than appends). -/
def data_process (st : AState) : AState :=
  { st with processed_data := st.full_analyzed_data.map procToken }

/-- `analyze_text` (lines 140-152): calls the analyzer on `raw_data`, stores
the first component as `full_analyzed_data`, runs `data_process`, and returns
`full_analyzed_data`.  There is no input check: when `raw_data` is `None` the
call `self.analyzer.analyze_text(None)` fails inside the collaborator with an
attribute error on the absent value (`None` has no string methods). -/
def analyze_text (C : Collab) (st : AState) :
    AState × Except PyErr (List (List Candidate)) :=
  match st.raw_data with
  | none => (st, Except.error PyErr.attributeError)
  | some txt =>
      let p := C.analyze txt
      let st1 := data_process { st with full_analyzed_data := p.1 }
      (st1, Except.ok st1.full_analyzed_data)

/-- `pam_stem` (lines 193-212): re-analyzes one word and reverse-transliterates
every entry of the secondary result list. -/
def pam_stem (C : Collab) (s : String) : List String :=
  ((C.analyze s).2).map C.buck2uni

/-- Python string subscript with a string index (`t0['transl']` where `t0` is
a string): unconditionally a `TypeError`, string indices must be integers. -/
def strGetStr (_s : String) (_k : String) : Except PyErr String :=
  Except.error PyErr.typeError

/-- One iteration of the `extract_data` loop (lines 165-171) on `data[i]`.
After the unpacking `data, _ = self.analyze_text()`, `data[i]` is a candidate
dict, so `data[i][0]` is a dict lookup with the integer key `0` and
`...['transl']` would subscript the resulting string. -/
def extract_body (C : Collab) (c : Candidate) : Except PyErr ERecord := do
  let t0 ← match dictGet? c (PyKey.int 0) with
           | some v => Except.ok v
           | none => Except.error PyErr.keyError
  let tans ← strGetStr t0 "transl"
  let word ← strGetStr t0 "arabic"
  let root := C.stem word
  let possible_root := pam_stem C word
  let rtrans := C.uni2buck root
  Except.ok { arabic := word, transl := tans, root := root,
              root_transl := rtrans, candidates := possible_root }

/-- The `extract_data` loop: records appended so far (they are appended to
`self.analyzed_data` inside the loop, so they survive a raise) together with
the exception that stopped the loop, if any. -/
def extractLoop (C : Collab) : List Candidate → List ERecord × Option PyErr
  | [] => ([], none)
  | c :: rest =>
      match extract_body C c with
      | Except.error e => ([], some e)
      | Except.ok r =>
          let p := extractLoop C rest
          (r :: p.1, p.2)

/-- `extract_data` (lines 155-172).  Line 164 is `data, _ = self.analyze_text()`:
`analyze_text` returns `full_analyzed_data` (the per-token list), so the
tuple unpacking requires exactly two tokens (otherwise `ValueError`) and binds
`data` to the FIRST TOKEN's candidate list; the loop then subscripts each
candidate dict with the integer `0`. -/
def extract_data (C : Collab) (st : AState) :
    AState × Except PyErr (List ERecord) :=
  match analyze_text C st with
  | (st1, Except.error e) => (st1, Except.error e)
  | (st1, Except.ok fad) =>
      match fad with
      | [d0, _] =>
          let p := extractLoop C d0
          let st2 := { st1 with analyzed_data := st1.analyzed_data ++ p.1 }
          match p.2 with
          | some e => (st2, Except.error e)
          | none => (st2, Except.ok st2.analyzed_data)
      | _ => (st1, Except.error PyErr.valueError)

/-- `search` (lines 215-239): transliterated stem of the key, then
`extract_data`, then the filter loop on `root_transl`; returns `set(result)`
(modelled as the duplicate-free list of the matches, first occurrences kept). -/
def search (C : Collab) (st : AState) (key : String) :
    AState × Except PyErr (List String) :=
  let key1 := C.uni2buck (C.stem key)
  match extract_data C st with
  | (st1, Except.error e) => (st1, Except.error e)
  | (st1, Except.ok data) =>
      (st1, Except.ok
        (((data.filter (fun r => r.root_transl = key1)).map (fun r => r.arabic)).dedup))

/-- The inner loop of `ambig` (lines 274-277): `temp.append(sol[2])` for every
candidate solution string; `sol[2]` raises `IndexError` when the string is
shorter than three characters. -/
def ambigTemp : List String → List Char × Option PyErr
  | [] => ([], none)
  | s :: rest =>
      match s.data[2]? with
      | none => ([], some PyErr.indexError)
      | some ch =>
          let p := ambigTemp rest
          (ch :: p.1, p.2)

/-- The outer loop of `ambig` (lines 273-279): appends `w['arabic']` when the
position-2 characters of `w['solution']` take more than one distinct value
(`len(set(temp)) > 1`); appends made before a raise are preserved. -/
def ambigLoop : List PRecord → List String × Option PyErr
  | [] => ([], none)
  | w :: rest =>
      match ambigTemp w.solution with
      | (_, some e) => ([], some e)
      | (temp, none) =>
          let p := ambigLoop rest
          (if 1 < temp.dedup.length then w.arabic :: p.1 else p.1, p.2)

/-- `ambig` (lines 272-279): appends to `ambig_words` (never rebinds it). -/
def ambig (st : AState) : AState × Option PyErr :=
  let p := ambigLoop st.processed_data
  ({ st with ambig_words := st.ambig_words ++ p.1 }, p.2)

/-- The position-2 character of a solution string, with a default for the
out-of-range case; used only under the length-3 precondition, where it is the
character Python's `sol[2]` reads. -/
def char2 (s : String) : Char :=
  s.data.getD 2 'A'

/-- The test of the `ambig` loop, on a whole record: more than one distinct
position-2 character among its candidate solution strings. -/
def ambigCond (w : PRecord) : Bool :=
  decide (1 < ((w.solution.map char2).dedup.length))

/-!
Two-object model, for the aliasing behaviour of the class attributes.
Lines 14-19 declare `raw_data`, `corpus`, `analyzed_data`,
`full_analyzed_data`, `processed_data`, `ambig_words` at class level.
`__init__` (lines 21-28) binds only `analyzer`, `stemmer`, `lemmatizer`,
`segmenter` and (when given) `raw_data` on the instance.  `analyze_text`,
`data_process` and `load_corpus` REBIND `self.full_analyzed_data`,
`self.processed_data`, `self.corpus` (assignments, creating instance
attributes), but `extract_data` (line 171) and `ambig` (line 279) only call
`.append` on `self.analyzed_data` / `self.ambig_words`, and no method ever
rebinds those two names.  Python attribute lookup therefore resolves
`analyzed_data` and `ambig_words`, on every instance, to the single
class-level list objects of lines 16 and 19, which the appends mutate in
place: they are shared by all instances.  The model keeps those two lists as
class-level cells of the world and per-instance `Option`-valued bindings for
the rebound attributes (`none` = attribute not bound on the instance, lookup
falls through to the never-mutated class default).
-/

/-- The instance-level attribute bindings of one `Arabica` object.  A `none`
means the attribute was never assigned on the instance, so attribute lookup
falls through to the class-level default (`None` for `raw_data`, `[]` for
`full_analyzed_data` and `processed_data`, `''` for `corpus`). -/
structure Inst where
  raw_data : Option (Option String)
  full_analyzed_data : Option (List (List Candidate))
  processed_data : Option (List PRecord)
  corpus : Option (List String)
deriving DecidableEq

/-- A world of two `Arabica` objects sharing the class-level list objects
`analyzed_data` (line 16) and `ambig_words` (line 19), the two attributes that
are mutated by `.append` and never rebound. -/
structure World where
  cls_analyzed_data : List ERecord
  cls_ambig_words : List String
  i1 : Inst
  i2 : Inst
deriving DecidableEq

/-- A freshly constructed object with no raw text: no instance attribute
bound except the collaborators (which carry no state here). -/
def freshInst : Inst :=
  { raw_data := none, full_analyzed_data := none, processed_data := none,
    corpus := none }

/-- The object the operation runs on: `true` = first, `false` = second. -/
def getInst (w : World) (b : Bool) : Inst :=
  if b then w.i1 else w.i2

/-- Store back the operated-on object's instance attributes. -/
def setInst (w : World) (b : Bool) (inst : Inst) : World :=
  if b then { w with i1 := inst } else { w with i2 := inst }

/-- Reading `ambig_words` through either instance: neither instance ever binds
the name, so lookup resolves to the one class-level list for both. -/
def World.ambigWordsVia (w : World) (_b : Bool) : List String :=
  w.cls_ambig_words

/-- Reading `analyzed_data` through either instance: same class-level list. -/
def World.analyzedVia (w : World) (_b : Bool) : List ERecord :=
  w.cls_analyzed_data

/-- Reading `processed_data` through an instance: instance binding if
`data_process` ran on it, else the class default `[]`. -/
def World.processedVia (w : World) (b : Bool) : List PRecord :=
  (getInst w b).processed_data.getD []

/-- `analyze_text` run on one of the two objects: rebinds
`full_analyzed_data` and `processed_data` on that instance only. -/
def analyze_text_on (C : Collab) (w : World) (b : Bool) :
    World × Except PyErr (List (List Candidate)) :=
  let inst := getInst w b
  match inst.raw_data.getD none with
  | none => (w, Except.error PyErr.attributeError)
  | some txt =>
      let p := C.analyze txt
      let inst1 := { inst with full_analyzed_data := some p.1,
                               processed_data := some (p.1.map procToken) }
      (setInst w b inst1, Except.ok p.1)

/-- `ambig` run on one of the two objects: reads that object's
`processed_data`, appends to the shared class-level `ambig_words` list. -/
def ambig_on (w : World) (b : Bool) : World × Option PyErr :=
  let p := ambigLoop (World.processedVia w b)
  ({ w with cls_ambig_words := w.cls_ambig_words ++ p.1 }, p.2)

/-- `extract_data` run on one of the two objects: appends to the shared
class-level `analyzed_data` list. -/
def extract_data_on (C : Collab) (w : World) (b : Bool) :
    World × Except PyErr (List ERecord) :=
  match analyze_text_on C w b with
  | (w1, Except.error e) => (w1, Except.error e)
  | (w1, Except.ok fad) =>
      match fad with
      | [d0, _] =>
          let p := extractLoop C d0
          let w2 := { w1 with cls_analyzed_data := w1.cls_analyzed_data ++ p.1 }
          match p.2 with
          | some e => (w2, Except.error e)
          | none => (w2, Except.ok w2.cls_analyzed_data)
      | _ => (w1, Except.error PyErr.valueError)

/-!
Concrete collaborator instantiations, used by the witnesses and by the
evaluations of the failing runs.  The analyzer outputs are small synthetic
fixtures of the contract shape; the string functions are identities (their
content never matters for the facts evaluated on them).
-/

/-- A candidate dict fixture with all five contract keys. -/
def candK : Candidate :=
  [(PyKey.str "transl", "kyf"), (PyKey.str "arabic", "kayfa"),
   (PyKey.str "solution", "kyf/ADV"), (PyKey.str "pos", "ADV"),
   (PyKey.str "gloss", "how")]

/-- First of two candidates for one token; solution `"aaa"` has `'a'` at
position 2. -/
def candA : Candidate :=
  [(PyKey.str "transl", "tA"), (PyKey.str "arabic", "W"),
   (PyKey.str "solution", "aaa"), (PyKey.str "pos", "N"),
   (PyKey.str "gloss", "gA")]

/-- Second candidate for the same token; solution `"aab"` has `'b'` at
position 2, disagreeing with `candA`. -/
def candB : Candidate :=
  [(PyKey.str "transl", "tB"), (PyKey.str "arabic", "W"),
   (PyKey.str "solution", "aab"), (PyKey.str "pos", "V"),
   (PyKey.str "gloss", "gB")]

/-- A collaborator whose analyzer finds three tokens, one candidate each. -/
def collab3 : Collab :=
  { analyze := fun _ => ([[candK], [candK], [candK]], ["k1"]),
    stem := fun s => s, uni2buck := fun s => s, buck2uni := fun s => s }

/-- A collaborator whose analyzer finds two tokens, the first with one
candidate and the second with zero candidates. -/
def collab2z : Collab :=
  { analyze := fun _ => ([[candK], []], ["k1"]),
    stem := fun s => s, uni2buck := fun s => s, buck2uni := fun s => s }

/-- A collaborator whose analyzer finds one token with the two disagreeing
candidates `candA`, `candB`. -/
def collabAmb : Collab :=
  { analyze := fun _ => ([[candA, candB]], []),
    stem := fun s => s, uni2buck := fun s => s, buck2uni := fun s => s }

/-- A fresh single-object state holding the raw text `"t"`. -/
def st0 : AState :=
  { raw_data := some "t", analyzed_data := [], full_analyzed_data := [],
    processed_data := [], ambig_words := [] }

/-- A state whose full analysis holds one token with candidates
`[candA, candB]`, as `analyze_text` with `collabAmb` leaves it. -/
def stAmb : AState :=
  (analyze_text collabAmb st0).1

/-- A state whose `processed_data` is the reshaping of `[[candA, candB]]`. -/
def stP : AState :=
  { st0 with processed_data := [procToken [candA, candB]] }

/-- A fresh two-object world where only the first object was given raw text. -/
def w0 : World :=
  { cls_analyzed_data := [], cls_ambig_words := [],
    i1 := { freshInst with raw_data := some (some "t") }, i2 := freshInst }

/-!
Lemmas about the `data_process` accumulation: one candidate dict's items
(`procItems`), then the fold over a token's candidates.
-/

theorem procItems_transl_of_not_mem (c : Candidate) (acc : PRecord)
    (h : PyKey.str "transl" ∉ c.map Prod.fst) :
    (procItems c acc).transl = acc.transl := by
  induction c generalizing acc with
  | nil => rfl
  | cons kv rest ih =>
      obtain ⟨k, v⟩ := kv
      simp only [List.map_cons, List.mem_cons, not_or] at h
      rw [procItems, ih _ h.2]
      exact if_neg (fun e => h.1 e.symm)

theorem procItems_arabic_of_not_mem (c : Candidate) (acc : PRecord)
    (h : PyKey.str "arabic" ∉ c.map Prod.fst) :
    (procItems c acc).arabic = acc.arabic := by
  induction c generalizing acc with
  | nil => rfl
  | cons kv rest ih =>
      obtain ⟨k, v⟩ := kv
      simp only [List.map_cons, List.mem_cons, not_or] at h
      rw [procItems, ih _ h.2]
      exact if_neg (fun e => h.1 e.symm)

theorem procItems_solution_of_not_mem (c : Candidate) (acc : PRecord)
    (h : PyKey.str "solution" ∉ c.map Prod.fst) :
    (procItems c acc).solution = acc.solution := by
  induction c generalizing acc with
  | nil => rfl
  | cons kv rest ih =>
      obtain ⟨k, v⟩ := kv
      simp only [List.map_cons, List.mem_cons, not_or] at h
      rw [procItems, ih _ h.2]
      exact if_neg (fun e => h.1 e.symm)

theorem procItems_pos_of_not_mem (c : Candidate) (acc : PRecord)
    (h : PyKey.str "pos" ∉ c.map Prod.fst) :
    (procItems c acc).pos = acc.pos := by
  induction c generalizing acc with
  | nil => rfl
  | cons kv rest ih =>
      obtain ⟨k, v⟩ := kv
      simp only [List.map_cons, List.mem_cons, not_or] at h
      rw [procItems, ih _ h.2]
      exact if_neg (fun e => h.1 e.symm)

theorem procItems_gloss_of_not_mem (c : Candidate) (acc : PRecord)
    (h : PyKey.str "gloss" ∉ c.map Prod.fst) :
    (procItems c acc).gloss = acc.gloss := by
  induction c generalizing acc with
  | nil => rfl
  | cons kv rest ih =>
      obtain ⟨k, v⟩ := kv
      simp only [List.map_cons, List.mem_cons, not_or] at h
      rw [procItems, ih _ h.2]
      exact if_neg (fun e => h.1 e.symm)

theorem procItems_transl (c : Candidate) (acc : PRecord)
    (hnd : (c.map Prod.fst).Nodup) (hm : PyKey.str "transl" ∈ c.map Prod.fst) :
    (procItems c acc).transl = cfield c (PyKey.str "transl") := by
  induction c generalizing acc with
  | nil => cases hm
  | cons kv rest ih =>
      obtain ⟨k, v⟩ := kv
      simp only [List.map_cons, List.nodup_cons] at hnd
      by_cases hk : k = PyKey.str "transl"
      · subst hk
        rw [procItems, procItems_transl_of_not_mem _ _ hnd.1]
        simp [cfield, dictGet?]
      · rcases List.mem_cons.mp hm with h | h
        · exact absurd h.symm hk
        · rw [procItems, ih _ hnd.2 h]
          simp [cfield, dictGet?, hk]

theorem procItems_arabic (c : Candidate) (acc : PRecord)
    (hnd : (c.map Prod.fst).Nodup) (hm : PyKey.str "arabic" ∈ c.map Prod.fst) :
    (procItems c acc).arabic = cfield c (PyKey.str "arabic") := by
  induction c generalizing acc with
  | nil => cases hm
  | cons kv rest ih =>
      obtain ⟨k, v⟩ := kv
      simp only [List.map_cons, List.nodup_cons] at hnd
      by_cases hk : k = PyKey.str "arabic"
      · subst hk
        rw [procItems, procItems_arabic_of_not_mem _ _ hnd.1]
        simp [cfield, dictGet?]
      · rcases List.mem_cons.mp hm with h | h
        · exact absurd h.symm hk
        · rw [procItems, ih _ hnd.2 h]
          simp [cfield, dictGet?, hk]

theorem procItems_solution (c : Candidate) (acc : PRecord)
    (hnd : (c.map Prod.fst).Nodup) (hm : PyKey.str "solution" ∈ c.map Prod.fst) :
    (procItems c acc).solution = acc.solution ++ [cfield c (PyKey.str "solution")] := by
  induction c generalizing acc with
  | nil => cases hm
  | cons kv rest ih =>
      obtain ⟨k, v⟩ := kv
      simp only [List.map_cons, List.nodup_cons] at hnd
      by_cases hk : k = PyKey.str "solution"
      · subst hk
        rw [procItems, procItems_solution_of_not_mem _ _ hnd.1]
        simp [cfield, dictGet?]
      · rcases List.mem_cons.mp hm with h | h
        · exact absurd h.symm hk
        · rw [procItems, ih _ hnd.2 h]
          simp [cfield, dictGet?, hk]

theorem procItems_pos (c : Candidate) (acc : PRecord)
    (hnd : (c.map Prod.fst).Nodup) (hm : PyKey.str "pos" ∈ c.map Prod.fst) :
    (procItems c acc).pos = acc.pos ++ [cfield c (PyKey.str "pos")] := by
  induction c generalizing acc with
  | nil => cases hm
  | cons kv rest ih =>
      obtain ⟨k, v⟩ := kv
      simp only [List.map_cons, List.nodup_cons] at hnd
      by_cases hk : k = PyKey.str "pos"
      · subst hk
        rw [procItems, procItems_pos_of_not_mem _ _ hnd.1]
        simp [cfield, dictGet?]
      · rcases List.mem_cons.mp hm with h | h
        · exact absurd h.symm hk
        · rw [procItems, ih _ hnd.2 h]
          simp [cfield, dictGet?, hk]

theorem procItems_gloss (c : Candidate) (acc : PRecord)
    (hnd : (c.map Prod.fst).Nodup) (hm : PyKey.str "gloss" ∈ c.map Prod.fst) :
    (procItems c acc).gloss = acc.gloss ++ [cfield c (PyKey.str "gloss")] := by
  induction c generalizing acc with
  | nil => cases hm
  | cons kv rest ih =>
      obtain ⟨k, v⟩ := kv
      simp only [List.map_cons, List.nodup_cons] at hnd
      by_cases hk : k = PyKey.str "gloss"
      · subst hk
        rw [procItems, procItems_gloss_of_not_mem _ _ hnd.1]
        simp [cfield, dictGet?]
      · rcases List.mem_cons.mp hm with h | h
        · exact absurd h.symm hk
        · rw [procItems, ih _ hnd.2 h]
          simp [cfield, dictGet?, hk]

theorem procFold_transl (cands : List Candidate) (acc : PRecord)
    (h : ∀ c ∈ cands, WFDict c) :
    (cands.foldl (fun a c => procItems c a) acc).transl
      = (cands.map (fun c => cfield c (PyKey.str "transl"))).getLastD acc.transl := by
  induction cands generalizing acc with
  | nil => rfl
  | cons c rest ih =>
      rw [List.foldl_cons, List.map_cons, List.getLastD_cons,
        ih _ (fun x hx => h x (List.mem_cons_of_mem _ hx)),
        procItems_transl c acc (h c (List.mem_cons_self _ _)).1
          (h c (List.mem_cons_self _ _)).2.1]

theorem procFold_arabic (cands : List Candidate) (acc : PRecord)
    (h : ∀ c ∈ cands, WFDict c) :
    (cands.foldl (fun a c => procItems c a) acc).arabic
      = (cands.map (fun c => cfield c (PyKey.str "arabic"))).getLastD acc.arabic := by
  induction cands generalizing acc with
  | nil => rfl
  | cons c rest ih =>
      rw [List.foldl_cons, List.map_cons, List.getLastD_cons,
        ih _ (fun x hx => h x (List.mem_cons_of_mem _ hx)),
        procItems_arabic c acc (h c (List.mem_cons_self _ _)).1
          (h c (List.mem_cons_self _ _)).2.2.1]

theorem procFold_solution (cands : List Candidate) (acc : PRecord)
    (h : ∀ c ∈ cands, WFDict c) :
    (cands.foldl (fun a c => procItems c a) acc).solution
      = acc.solution ++ cands.map (fun c => cfield c (PyKey.str "solution")) := by
  induction cands generalizing acc with
  | nil => simp
  | cons c rest ih =>
      rw [List.foldl_cons, List.map_cons,
        ih _ (fun x hx => h x (List.mem_cons_of_mem _ hx)),
        procItems_solution c acc (h c (List.mem_cons_self _ _)).1
          (h c (List.mem_cons_self _ _)).2.2.2.1]
      simp

theorem procFold_pos (cands : List Candidate) (acc : PRecord)
    (h : ∀ c ∈ cands, WFDict c) :
    (cands.foldl (fun a c => procItems c a) acc).pos
      = acc.pos ++ cands.map (fun c => cfield c (PyKey.str "pos")) := by
  induction cands generalizing acc with
  | nil => simp
  | cons c rest ih =>
      rw [List.foldl_cons, List.map_cons,
        ih _ (fun x hx => h x (List.mem_cons_of_mem _ hx)),
        procItems_pos c acc (h c (List.mem_cons_self _ _)).1
          (h c (List.mem_cons_self _ _)).2.2.2.2.1]
      simp

theorem procFold_gloss (cands : List Candidate) (acc : PRecord)
    (h : ∀ c ∈ cands, WFDict c) :
    (cands.foldl (fun a c => procItems c a) acc).gloss
      = acc.gloss ++ cands.map (fun c => cfield c (PyKey.str "gloss")) := by
  induction cands generalizing acc with
  | nil => simp
  | cons c rest ih =>
      rw [List.foldl_cons, List.map_cons,
        ih _ (fun x hx => h x (List.mem_cons_of_mem _ hx)),
        procItems_gloss c acc (h c (List.mem_cons_self _ _)).1
          (h c (List.mem_cons_self _ _)).2.2.2.2.2]
      simp

/-- The last element of a mapped list, for nonempty lists. -/
theorem getLastD_map_ne_nil {α β : Type} (f : α → β) (l : List α) (d : α) (e : β)
    (h : l ≠ []) : (l.map f).getLastD e = f (l.getLastD d) := by
  induction l generalizing d e with
  | nil => exact absurd rfl h
  | cons x xs ih =>
      cases xs with
      | nil => rfl
      | cons y ys =>
          rw [List.map_cons, List.getLastD_cons, List.getLastD_cons]
          exact ih x (f x) (by simp)

/-!
Lemmas about the `ambig` loops.
-/

theorem ambigTemp_eq (sols : List String) (h : ∀ s ∈ sols, 3 ≤ s.length) :
    ambigTemp sols = (sols.map char2, none) := by
  induction sols with
  | nil => rfl
  | cons s rest ih =>
      have hs : 2 < s.data.length := h s (List.mem_cons_self _ _)
      rw [ambigTemp, List.getElem?_eq_getElem hs,
        ih (fun x hx => h x (List.mem_cons_of_mem _ hx))]
      simp [char2, List.getD_eq_getElem?_getD, List.getElem?_eq_getElem hs]

theorem ambigTemp_none_iff (sols : List String) :
    (ambigTemp sols).2 = none ↔ ∀ s ∈ sols, 3 ≤ s.length := by
  induction sols with
  | nil => simp [ambigTemp]
  | cons s rest ih =>
      by_cases hs : 2 < s.data.length
      · rw [ambigTemp, List.getElem?_eq_getElem hs]
        simpa [List.forall_mem_cons, ih] using fun _ => hs
      · rw [ambigTemp, List.getElem?_eq_none (by omega)]
        simp only [List.forall_mem_cons]
        exact iff_of_false (by simp) (fun hc => hs hc.1)

theorem ambigLoop_eq (recs : List PRecord)
    (h : ∀ w ∈ recs, ∀ s ∈ w.solution, 3 ≤ s.length) :
    ambigLoop recs = ((recs.filter ambigCond).map (fun w => w.arabic), none) := by
  induction recs with
  | nil => rfl
  | cons w rest ih =>
      rw [ambigLoop, ambigTemp_eq w.solution (h w (List.mem_cons_self _ _)),
        ih (fun x hx => h x (List.mem_cons_of_mem _ hx)), List.filter_cons]
      by_cases hw : 1 < ((w.solution.map char2).dedup.length)
      · simp [ambigCond, hw]
      · simp [ambigCond, hw]

theorem ambigLoop_none_iff (recs : List PRecord) :
    (ambigLoop recs).2 = none ↔ ∀ w ∈ recs, ∀ s ∈ w.solution, 3 ≤ s.length := by
  induction recs with
  | nil => simp [ambigLoop]
  | cons w rest ih =>
      rcases hT : ambigTemp w.solution with ⟨temp, e⟩
      cases e with
      | some e =>
          have hw : ¬ ∀ s ∈ w.solution, 3 ≤ s.length := by
            rw [← ambigTemp_none_iff, hT]
            simp
          rw [ambigLoop, hT]
          simp only [List.forall_mem_cons]
          exact iff_of_false (by simp) (fun hc => hw hc.1)
      | none =>
          have hw : ∀ s ∈ w.solution, 3 ≤ s.length := by
            rw [← ambigTemp_none_iff, hT]
          rw [ambigLoop, hT]
          simp only [List.forall_mem_cons, ih]
          exact ⟨fun hr => ⟨hw, hr⟩, fun hc => hc.2⟩

/-!
Frame lemmas for the two-object world.
-/

theorem getInst_setInst_other (w : World) (b : Bool) (inst : Inst) :
    getInst (setInst w b inst) (!b) = getInst w (!b) := by
  cases b <;> rfl

theorem getInst_set_cls_analyzed (w : World) (l : List ERecord) (x : Bool) :
    getInst { w with cls_analyzed_data := l } x = getInst w x := by
  cases x <;> rfl

theorem analyze_text_on_frame (C : Collab) (w : World) (b : Bool) :
    getInst (analyze_text_on C w b).1 (!b) = getInst w (!b) := by
  rw [analyze_text_on]
  rcases (getInst w b).raw_data.getD none with _ | txt
  · rfl
  · exact getInst_setInst_other w b _

theorem ambig_on_frame (w : World) (b : Bool) :
    getInst (ambig_on w b).1 (!b) = getInst w (!b) := by
  cases b <;> rfl

theorem extract_data_on_frame (C : Collab) (w : World) (b : Bool) :
    getInst (extract_data_on C w b).1 (!b) = getInst w (!b) := by
  rw [extract_data_on]
  rcases h : analyze_text_on C w b with ⟨w1, r⟩
  have hw1 : getInst w1 (!b) = getInst w (!b) := by
    have := analyze_text_on_frame C w b
    rw [h] at this
    exact this
  cases r with
  | error e => exact hw1
  | ok fad =>
      match fad with
      | [] => exact hw1
      | [d0] => exact hw1
      | [d0, d1] =>
          rcases hp : extractLoop C d0 with ⟨recs, e?⟩
          cases e? <;>
            simpa [hp, getInst_set_cls_analyzed] using hw1
      | d0 :: d1 :: d2 :: rest => exact hw1

/-!
The claims.
-/

/-- Claim C1: the claim says `extract_data` appends one record per token of
the full analysis (first candidate's `transl`/`arabic`, stemmer root,
transliterated root, re-analysis candidates).  The code cannot do this: line
164 `data, _ = self.analyze_text()` tuple-unpacks the per-token list itself,
so any analysis with other than two tokens raises `ValueError` before a
single record is appended.  This theorem evaluates the embedded code on a
three-token analysis. -/
theorem extract_data_three_tokens_valueError :
    extract_data collab3 st0
      = ((analyze_text collab3 st0).1, Except.error PyErr.valueError) := rfl

/-- Claim C2: the claim says `search(key)` returns the set of surface forms
whose `root_transl` matches the transliterated stem of the key.  `search`
calls `extract_data`, which always raises (ValueError or KeyError), so no
call to `search` ever returns a result set.  Evaluated on a three-token
analysis. -/
theorem search_three_tokens_valueError :
    (search collab3 st0 "k").2 = Except.error PyErr.valueError := rfl

/-- Claim C3: after `data_process`, every processed record's `solution`,
`pos` and `gloss` lists have equal length, equal to the number of candidate
solutions the analyzer produced for that token, provided every candidate
mapping carries the five expected keys. -/
theorem data_process_field_count (st : AState) (i : Nat) (tok : List Candidate)
    (hget : st.full_analyzed_data[i]? = some tok)
    (hwf : ∀ c ∈ tok, WFDict c) :
    ∃ r, (data_process st).processed_data[i]? = some r ∧
      r.solution.length = tok.length ∧ r.pos.length = tok.length ∧
      r.gloss.length = tok.length := by
  refine ⟨procToken tok, ?_, ?_, ?_, ?_⟩
  · simp [data_process, List.getElem?_map, hget]
  · rw [procToken, procFold_solution _ _ hwf]
    simp
  · rw [procToken, procFold_pos _ _ hwf]
    simp
  · rw [procToken, procFold_gloss _ _ hwf]
    simp

/-- Witness for C3 on the two-candidate fixture token. -/
theorem data_process_field_count_witness :
    ∃ r, (data_process stAmb).processed_data[0]? = some r ∧
      r.solution.length = [candA, candB].length ∧
      r.pos.length = [candA, candB].length ∧
      r.gloss.length = [candA, candB].length :=
  data_process_field_count stAmb 0 [candA, candB] rfl (by decide)

/-- Claim C4: for a token with multiple candidates, `data_process`
accumulates asymmetrically: the scalars `transl` and `arabic` keep the LAST
candidate's values, while `solution`, `pos`, `gloss` collect the value of
every candidate in order. -/
theorem data_process_asymmetric (st : AState) (i : Nat) (tok : List Candidate)
    (hget : st.full_analyzed_data[i]? = some tok)
    (hwf : ∀ c ∈ tok, WFDict c) (hmul : 2 ≤ tok.length) :
    (data_process st).processed_data[i]? = some
      { transl := cfield (tok.getLastD []) (PyKey.str "transl")
        arabic := cfield (tok.getLastD []) (PyKey.str "arabic")
        solution := tok.map (fun c => cfield c (PyKey.str "solution"))
        pos := tok.map (fun c => cfield c (PyKey.str "pos"))
        gloss := tok.map (fun c => cfield c (PyKey.str "gloss")) } := by
  have hne : tok ≠ [] := by
    intro e
    rw [e] at hmul
    simp at hmul
  have et : (procToken tok).transl = cfield (tok.getLastD []) (PyKey.str "transl") := by
    rw [procToken, procFold_transl _ _ hwf, getLastD_map_ne_nil _ _ [] _ hne]
  have ea : (procToken tok).arabic = cfield (tok.getLastD []) (PyKey.str "arabic") := by
    rw [procToken, procFold_arabic _ _ hwf, getLastD_map_ne_nil _ _ [] _ hne]
  have es : (procToken tok).solution = tok.map (fun c => cfield c (PyKey.str "solution")) := by
    rw [procToken, procFold_solution _ _ hwf]
    simp
  have ep : (procToken tok).pos = tok.map (fun c => cfield c (PyKey.str "pos")) := by
    rw [procToken, procFold_pos _ _ hwf]
    simp
  have eg : (procToken tok).gloss = tok.map (fun c => cfield c (PyKey.str "gloss")) := by
    rw [procToken, procFold_gloss _ _ hwf]
    simp
  have h1 : procToken tok
      = { transl := cfield (tok.getLastD []) (PyKey.str "transl")
          arabic := cfield (tok.getLastD []) (PyKey.str "arabic")
          solution := tok.map (fun c => cfield c (PyKey.str "solution"))
          pos := tok.map (fun c => cfield c (PyKey.str "pos"))
          gloss := tok.map (fun c => cfield c (PyKey.str "gloss")) } := by
    rw [← et, ← ea, ← es, ← ep, ← eg]
  rw [← h1]
  simp [data_process, List.getElem?_map, hget]

/-- Witness for C4: on the fixture token `[candA, candB]`, the scalars come
from `candB` (its `transl` is `"tB"`) while the lists collect both. -/
theorem data_process_asymmetric_witness :
    (data_process stAmb).processed_data[0]? = some
      { transl := cfield ([candA, candB].getLastD []) (PyKey.str "transl")
        arabic := cfield ([candA, candB].getLastD []) (PyKey.str "arabic")
        solution := [candA, candB].map (fun c => cfield c (PyKey.str "solution"))
        pos := [candA, candB].map (fun c => cfield c (PyKey.str "pos"))
        gloss := [candA, candB].map (fun c => cfield c (PyKey.str "gloss")) } :=
  data_process_asymmetric stAmb 0 [candA, candB] rfl (by decide) (by decide)

/-- Claim C5: `ambig` appends a record's `arabic` form to `ambig_words`
exactly when the position-2 characters of its candidate `solution` strings
take more than one distinct value; records whose candidates all agree are
excluded, insertion order is analysis order, duplicates are kept, and the
list is appended to (its previous content is preserved). -/
theorem ambig_appends_iff_disagreeing (st : AState)
    (h : ∀ w ∈ st.processed_data, ∀ s ∈ w.solution, 3 ≤ s.length) :
    ambig st = ({ st with ambig_words := st.ambig_words ++
        (st.processed_data.filter ambigCond).map (fun w => w.arabic) }, none) := by
  simp only [ambig, ambigLoop_eq st.processed_data h]

/-- Witness for C5 on a state holding one record with disagreeing
position-2 characters (`"aaa"` vs `"aab"`). -/
theorem ambig_appends_iff_disagreeing_witness :
    ambig stP = ({ stP with ambig_words := stP.ambig_words ++
        (stP.processed_data.filter ambigCond).map (fun w => w.arabic) }, none) :=
  ambig_appends_iff_disagreeing stP (by decide)

/-- Claim C6: the claim says a token with zero analyzer candidates is handled
by skipping it or emitting an empty-fields record, never by an index fault.
The code has no such handling: on a two-token analysis whose second token has
zero candidates, the loop (over the FIRST token's candidate dicts, after the
line-164 unpacking) subscripts a candidate dict with the integer `0` and
raises a lookup fault (`KeyError`); no record is appended. -/
theorem extract_data_zero_candidates_keyError :
    (extract_data collab2z st0).2 = Except.error PyErr.keyError
    ∧ (extract_data collab2z st0).1.analyzed_data = [] :=
  ⟨rfl, rfl⟩

/-- Claim C7: the claim says calling `analyze_text` with no raw text fails
with a clear "no input provided" condition.  The code performs no input
check: it passes the absent value (`None`) straight to the external analyzer,
which fails with a null-dereference-style attribute error. -/
theorem analyze_text_no_input_attributeError :
    analyze_text collab3 { st0 with raw_data := none }
      = ({ st0 with raw_data := none }, Except.error PyErr.attributeError) := rfl

/-- Claim C8: the claim says two successive `extract_data` calls append two
full copies of the per-token records.  In the code both calls raise before
reaching the loop body's append (here: `ValueError` at the line-164
unpacking, on a three-token analysis), and `analyzed_data` stays empty after
either call. -/
theorem extract_data_twice_no_copies :
    (extract_data collab3 st0).2 = Except.error PyErr.valueError
    ∧ (extract_data collab3 st0).1.analyzed_data = []
    ∧ (extract_data collab3 (extract_data collab3 st0).1).2
        = Except.error PyErr.valueError
    ∧ (extract_data collab3 (extract_data collab3 st0).1).1.analyzed_data = [] :=
  ⟨rfl, rfl, rfl, rfl⟩

/-- Counterexample to claim C9: `ambig_words` is a class-level list (line 19)
that no method ever rebinds, so `ambig` run on the first object mutates the
list that the second object's attribute lookup resolves to: the second
object's observed `ambig_words` changes from `[]` to `["W"]`. -/
theorem ambig_cross_instance_leak :
    World.ambigWordsVia w0 false = []
    ∧ World.ambigWordsVia
        (ambig_on (analyze_text_on collabAmb w0 true).1 true).1 false = ["W"] :=
  ⟨rfl, rfl⟩

/-- Claim C9 as amended: mutation by rebinding instance attributes
(`full_analyzed_data`, `processed_data` here) is confined to the operated-on
object — the other object's own attribute record is unchanged by
`analyze_text`, `ambig` and `extract_data` — but the append-mutated lists
`ambig_words` and `analyzed_data` are class-level objects shared by both:
after an operation, both objects observe the same list. -/
theorem cross_instance_effects (C : Collab) (w : World) (b : Bool) :
    getInst (analyze_text_on C w b).1 (!b) = getInst w (!b)
    ∧ getInst (ambig_on w b).1 (!b) = getInst w (!b)
    ∧ getInst (extract_data_on C w b).1 (!b) = getInst w (!b)
    ∧ World.ambigWordsVia (ambig_on w b).1 (!b)
        = World.ambigWordsVia (ambig_on w b).1 b
    ∧ World.analyzedVia (extract_data_on C w b).1 (!b)
        = World.analyzedVia (extract_data_on C w b).1 b :=
  ⟨analyze_text_on_frame C w b, ambig_on_frame w b,
    extract_data_on_frame C w b, rfl, rfl⟩

/-- Claim C10: `ambig` runs without an index fault if and only if every
string in every processed record's `solution` list has length at least 3
(so that `sol[2]` is in range); under that precondition it is total. -/
theorem ambig_total_iff (st : AState) :
    (ambig st).2 = none ↔
      ∀ w ∈ st.processed_data, ∀ s ∈ w.solution, 3 ≤ s.length := by
  have h : (ambig st).2 = (ambigLoop st.processed_data).2 := rfl
  rw [h]
  exact ambigLoop_none_iff st.processed_data

end Arabycia
